import Mathlib

/-!
Shallow embedding of the pointer-driven interaction engine of the
gantt-schedule-timeline-calendar repository: the ItemMovement plugin
(collision validator, move/resize commit logic, movement-record lifecycle)
and the Selection plugin (linked-item closure, selection area, selection
commit).  Times, pixel coordinates and deltas are modelled as integers;
item and row identifiers as strings.  Fallible or guarded commits are
modelled as Option values (none = no commit).
-/

set_option autoImplicit false

namespace Gantt

/-- Plugin options of ItemMovement relevant to the modelled functions
(moveable, resizable, resizerContent, wait and the snap functions are passed
separately where needed). -/
structure Options where
  collisionDetection : Bool
  outOfBorders : Bool
  ghostNode : Bool
  deriving DecidableEq, Repr

/-- The slice of the internal chart time state the plugin reads:
leftGlobal, from and to. -/
structure ChartTime where
  leftGlobal : Int
  timeFrom : Int
  timeTo : Int
  deriving DecidableEq, Repr

/-- The time interval of an item: item.time.start and item.time.end. -/
structure ItemTime where
  timeStart : Int
  timeEnd : Int
  deriving DecidableEq, Repr

/-- An entry of a row item cache (row._internal.items): an id and a time
interval. -/
structure RowItem where
  id : String
  time : ItemTime
  deriving DecidableEq, Repr

/-- The default snapStart and snapEnd of the plugin options simply add the
diff to the time. -/
def defaultSnap : Int → Int → Int := fun t d => t + d

/-- Embedding of isCollision of the ItemMovement plugin.  rowItems is the
item cache of the row with identifier rowId; itemId is the item being moved;
start and finish are the proposed interval.  The diff computation mirrors
the source: diff = end - start, negated when its sign is -1, and a collision
is reported when that absolute difference is at most 1. -/
def isCollision (opts : Options) (time : ChartTime) (rowItems : List RowItem)
    (itemId : String) (start finish : Int) : Bool :=
  if !opts.collisionDetection then false
  else if opts.outOfBorders && (decide (start < time.timeFrom) || decide (finish > time.timeTo)) then true
  else
    let diff0 := finish - start
    let diff := if diff0 < 0 then -diff0 else diff0
    if diff ≤ 1 then true
    else
      rowItems.any fun rowItem =>
        rowItem.id != itemId &&
        ((decide (start ≥ rowItem.time.timeStart) && decide (start ≤ rowItem.time.timeEnd)) ||
         (decide (finish ≥ rowItem.time.timeStart) && decide (finish ≤ rowItem.time.timeEnd)) ||
         (decide (start ≤ rowItem.time.timeStart) && decide (finish ≥ rowItem.time.timeEnd)))

/-- Embedding of the horizontal move logic movementX of the ItemMovement
plugin (the ghost repositioning is visual only and not part of the committed
state).  snapS and snapE are the resolved getSnapStart and getSnapEnd
functions for the item (the item argument of the source snap functions is
fixed for one call, so they are modelled as functions of time and diff).
The result is the committed item time, or none when no commit happens. -/
def movementX (opts : Options) (snapS snapE : Int → Int → Int) (time : ChartTime)
    (rowItems : List RowItem) (itemId : String) (item : ItemTime)
    (clientX ganttLeft timePerPixel : Int) : Option ItemTime :=
  let left := clientX - ganttLeft
  let leftMs := time.leftGlobal + left * timePerPixel
  let add := leftMs - item.timeStart
  let finalStartTime := snapS item.timeStart add
  let finalAdd := finalStartTime - item.timeStart
  let collision :=
    isCollision opts time rowItems itemId (item.timeStart + finalAdd) (item.timeEnd + finalAdd)
  if finalAdd != 0 && !collision then
    some { timeStart := item.timeStart + finalAdd, timeEnd := snapE item.timeEnd finalAdd - 1 }
  else none

/-- Embedding of the resize logic resizeX of the ItemMovement plugin.
resizable is the result of the isResizable(data) gate.  The result is the
committed item time, or none when the proposal is discarded. -/
def resizeX (opts : Options) (snapS snapE : Int → Int → Int) (time : ChartTime)
    (rowItems : List RowItem) (itemId : String) (item : ItemTime)
    (clientX ganttLeft timePerPixel : Int) (resizable : Bool) : Option ItemTime :=
  if !resizable then none
  else
    let left := clientX - ganttLeft
    let leftMs := time.leftGlobal + left * timePerPixel
    let add := leftMs - item.timeEnd
    if item.timeEnd + add < item.timeStart then none
    else
      let finalEndTime := snapE item.timeEnd add - 1
      let finalAdd := finalEndTime - item.timeEnd
      let collision := isCollision opts time rowItems itemId item.timeStart (item.timeEnd + finalAdd)
      if finalAdd != 0 && !collision then
        some { timeStart := snapS item.timeStart 0, timeEnd := snapE item.timeEnd finalAdd - 1 }
      else none

/-- A per-item movement record of the ItemMovement plugin.  The geometry
fields are undefined until captured, modelled as Option; the ghost field
records whether a ghost proxy node is currently attached. -/
structure Movement where
  moving : Bool
  resizing : Bool
  waiting : Bool
  ghost : Bool
  itemTop : Option Int
  itemX : Option Int
  ganttTop : Option Int
  ganttLeft : Option Int
  deriving DecidableEq, Repr

/-- The fresh all-false record getMovement creates on first access. -/
def freshMovement : Movement :=
  { moving := false, resizing := false, waiting := false, ghost := false
  , itemTop := none, itemX := none, ganttTop := none, ganttLeft := none }

/-- The movementState map of the plugin: per-item records keyed by item id,
in insertion order (JS object property order). -/
abbrev MovementState := List (String × Movement)

/-- Embedding of getMovement: returns the record of the item, creating a
fresh all-false record (appended to the map) if it does not exist. -/
def getMovement (st : MovementState) (itemId : String) : Movement × MovementState :=
  match st.lookup itemId with
  | some m => (m, st)
  | none => (freshMovement, st ++ [(itemId, freshMovement)])

/-- The flag reset documentUp applies to each record. -/
def clearFlags (m : Movement) : Movement :=
  { m with moving := false, resizing := false, waiting := false }

/-- Embedding of destroyGhost: removes the ghost node of a record, but only
when the ghostNode option is enabled (the source returns early otherwise). -/
def destroyGhost (opts : Options) (m : Movement) : Movement :=
  if opts.ghostNode then { m with ghost := false } else m

/-- The loop at the end of documentUp: every tracked record gets all three
flags cleared and its ghost destroyed. -/
def resetAll (opts : Options) (st : MovementState) : MovementState :=
  st.map fun p => (p.1, destroyGhost opts (clearFlags p.2))

/-- Embedding of documentUp as seen by the handler attached for item
itemId: if the own record has no active flag the handler returns without
touching anything (beyond the lazily created record); otherwise it resets
every tracked record and destroys every ghost. -/
def documentUp (opts : Options) (itemId : String) (st : MovementState) : MovementState :=
  let (m, st1) := getMovement st itemId
  if m.moving || m.resizing || m.waiting then resetAll opts st1 else st1

/-- A document pointerup event is dispatched to the documentUp handler of
every item that registered one, in registration order. -/
def pointerUpAll (opts : Options) (handlers : List String) (st : MovementState) : MovementState :=
  handlers.foldl (fun s k => documentUp opts k s) st

/-- A movement record is fully reset: no phase flag set and no ghost. -/
def clearedRec (m : Movement) : Bool :=
  !m.moving && !m.resizing && !m.waiting && !m.ghost

/-- Every tracked movement record is fully reset. -/
def allCleared (st : MovementState) : Bool :=
  st.all fun p => clearedRec p.2

/-- No tracked movement record holds a ghost. -/
def noGhosts (st : MovementState) : Bool :=
  st.all fun p => !p.2.ghost

/-- The geometry captured when a gesture becomes active: the bounding
rectangle of the chart timeline and the pixel offsets of the item. -/
structure Capture where
  ganttTop : Int
  ganttLeft : Int
  itemX : Int
  itemTop : Int
  deriving DecidableEq, Repr

/-- Embedding of createGhost: attaches a ghost proxy unless the ghostNode
option is off or a ghost is already attached. -/
def createGhost (opts : Options) (cap : Capture) (m : Movement) : Movement :=
  if !opts.ghostNode || m.ghost then m
  else { m with itemTop := some cap.itemTop, ghost := true }

/-- Embedding of labelDown (pointer-down on the item body): ignored for a
non-primary button, otherwise the record enters the waiting phase.  The
timer the source schedules is modelled separately as timerCallback. -/
def labelDown (primaryButton : Bool) (m : Movement) : Movement :=
  if !primaryButton then m else { m with waiting := true }

/-- Embedding of the setTimeout callback scheduled by labelDown: if the
waiting flag has been cleared in the meantime the callback does nothing;
otherwise the record enters the moving phase, captures the gesture
geometry and optionally creates a ghost. -/
def timerCallback (opts : Options) (cap : Capture) (m : Movement) : Movement :=
  if !m.waiting then m
  else
    createGhost opts cap
      { m with moving := true, ganttTop := some cap.ganttTop
             , ganttLeft := some cap.ganttLeft, itemX := some cap.itemX }

end Gantt

namespace Selection

/-- A pointer position of the TimelinePointer channel. -/
structure Point where
  x : Int
  y : Int
  deriving DecidableEq, Repr

/-- The published selection rectangle. -/
structure Area where
  x : Int
  y : Int
  width : Int
  height : Int
  deriving DecidableEq, Repr

/-- Embedding of getSelectionArea of the Selection plugin: the rectangle
spanned by the initial and current pointer positions, normalized so width
and height are the absolute axis deltas. -/
def getSelectionArea (initial current : Point) : Area :=
  let width := current.x - initial.x
  let height := current.y - initial.y
  let xw : Int × Int := if width ≥ 0 then (initial.x, width) else (current.x, -width)
  let yh : Int × Int := if height ≥ 0 then (initial.y, height) else (current.y, -height)
  { x := xw.1, y := yh.1, width := xw.2, height := yh.2 }

/-- Embedding of getItemsUnderSelectionArea of the Selection plugin, which
is a stub in the source and always returns the empty list. -/
def getItemsUnderSelectionArea : List String := []

/-- The linkedWith graph: for each item id the list of item ids it links
to (empty when the item has no linkedWith property). -/
abbrev LinkGraph := String → List String

/-- The loop body of collectLinkedItems: processes the pending linked ids
of one level, pushing each id and recursing into its own linkedWith list
before moving on.  The source recursion carries no termination measure, so
it is indexed by fuel; none models a run that exceeds every finite depth
(the source would recurse forever). -/
def collectLoop (g : LinkGraph) : Nat → List String → List String → Option (List String)
  | _, [], current => some current
  | 0, _ :: _, _ => none
  | Nat.succ fuel, linkedId :: rest, current =>
    match collectLoop g fuel (g linkedId) (current ++ [linkedId]) with
    | none => none
    | some current2 => collectLoop g fuel rest current2

/-- Embedding of collectLinkedItems of the Selection plugin: depth-first
walk of the linkedWith graph starting from itemId, appending every visited
id to current.  There is no visited-set check in the source. -/
def collectLinkedItems (g : LinkGraph) (fuel : Nat) (itemId : String)
    (current : List String) : Option (List String) :=
  collectLoop g fuel (g itemId) current

/-- Deduplication as performed by the JS Set constructor: keeps the first
occurrence of each element, in encounter order. -/
def jsSetDedupAux : List String → List String → List String
  | [], _ => []
  | x :: xs, seen =>
    if seen.contains x then jsSetDedupAux xs seen
    else x :: jsSetDedupAux xs (x :: seen)

/-- Deduplicate a list keeping first occurrences (the JS Set semantics used
by getSelected; items are identified by their id). -/
def jsSetDedup (l : List String) : List String := jsSetDedupAux l []

/-- Embedding of getSelected of the Selection plugin: if the target item is
already in the selected set, the selected set is returned unchanged;
otherwise the link closure of the target (seeded with the target itself) is
computed, and either unioned with the previous selection (ctrl held) or
returned alone.  none propagates a non-terminating closure computation. -/
def getSelected (g : LinkGraph) (fuel : Nat) (prevSelected : List String)
    (ctrl : Bool) (itemId : String) : Option (List String) :=
  if prevSelected.contains itemId then some prevSelected
  else
    match collectLinkedItems g fuel itemId [itemId] with
    | none => none
    | some closure =>
      if ctrl then some (jsSetDedup (prevSelected ++ closure))
      else some closure

/-- The item store slice the selection commit touches: each item id mapped
to its selected flag, in insertion order. -/
abbrev ItemFlags := List (String × Bool)

/-- Embedding of the multi-update built by selectItems: one batched update
that first sets the selected flag of every item to false and then sets it
to true for every item of the new selection.  The whole builder is applied
(done) as a single atomic store update. -/
def commitSelection (items : ItemFlags) (sel : List String) : ItemFlags :=
  let cleared := items.map fun p => (p.1, false)
  sel.foldl (fun acc id => acc.map fun p => if p.1 = id then (p.1, true) else p) cleared

/-- Embedding of selectItems: computes the new selected set via getSelected
and commits it atomically; none propagates a non-terminating closure
computation. -/
def selectItems (g : LinkGraph) (fuel : Nat) (items : ItemFlags)
    (prevSelected : List String) (ctrl : Bool) (targetId : String) :
    Option (ItemFlags × List String) :=
  match getSelected g fuel prevSelected ctrl targetId with
  | none => none
  | some sel => some (commitSelection items sel, sel)

/-- Embedding of selectCells: computes the normalized selection area, asks
getItemsUnderSelectionArea for the covered items, and if that set is empty
clears the selected flag of every item and empties the selected item set.
The result is (isSelecting, selectionArea, item flags, selected set). -/
def selectCells (initial current : Point) (items : ItemFlags)
    (selectedItems : List String) : Bool × Area × ItemFlags × List String :=
  let area := getSelectionArea initial current
  let selectingItems := getItemsUnderSelectionArea
  if selectingItems.length = 0 then
    (true, area, items.map fun p => (p.1, false), [])
  else
    (true, area, items, selectedItems)

end Selection

/-- A linkedWith graph shaped as a diamond: A links to B and C, which both
link to D. -/
def diamondG : Selection.LinkGraph := fun i =>
  if i = "A" then ["B", "C"] else if i = "B" then ["D"] else if i = "C" then ["D"] else []

/-- A linkedWith graph with a two-item cycle between A and B. -/
def cycleG : Selection.LinkGraph := fun i =>
  if i = "A" then ["B"] else if i = "B" then ["A"] else []

/-- A linkedWith graph where X links to Y and nothing else links. -/
def chainXY : Selection.LinkGraph := fun i =>
  if i = "X" then ["Y"] else []

/-- Reachability in a linkedWith graph: w can be reached from v by
following zero or more links. -/
inductive Reaches (g : Selection.LinkGraph) : String → String → Prop
  | refl (v : String) : Reaches g v v
  | step {u v w : String} : v ∈ g u → Reaches g v w → Reaches g u w

/-- There is a link path of at least one step from u to w. -/
def ReachesPlus (g : Selection.LinkGraph) (u w : String) : Prop :=
  ∃ v ∈ g u, Reaches g v w

/-- Some vertex lying on a cycle is reachable from v. -/
def ReachesCycle (g : Selection.LinkGraph) (v : String) : Prop :=
  ∃ w, Reaches g v w ∧ ReachesPlus g w w

/-! ## Helper lemmas -/

theorem normPair_eq (a b : Int) :
    (if b - a ≥ 0 then (a, b - a) else (b, -(b - a))) = (min a b, |a - b|) := by
  rcases le_or_lt a b with h | h
  · rw [if_pos (by omega), min_eq_left h, abs_of_nonpos (by omega)]
    refine Prod.ext rfl ?_
    ring
  · rw [if_neg (by omega), min_eq_right (le_of_lt h), abs_of_nonneg (by omega)]
    refine Prod.ext rfl ?_
    ring

theorem getSelectionArea_eq (p q : Selection.Point) :
    Selection.getSelectionArea p q
      = { x := min p.x q.x, y := min p.y q.y, width := |p.x - q.x|, height := |p.y - q.y| } := by
  have hx := normPair_eq p.x q.x
  have hy := normPair_eq p.y q.y
  simp only [Selection.getSelectionArea, Prod.ext_iff] at hx hy ⊢
  rw [hx.1, hx.2, hy.1, hy.2]

theorem commit_foldl_eq (sel : List String) (L : Selection.ItemFlags) :
    sel.foldl (fun acc id => acc.map fun p => if p.1 = id then (p.1, true) else p) L
      = L.map fun p => (p.1, p.2 || sel.contains p.1) := by
  induction sel generalizing L with
  | nil => simp
  | cons s rest ih =>
    rw [List.foldl_cons, ih, List.map_map]
    apply List.map_congr_left
    intro p _
    by_cases h : p.1 = s <;>
      simp [h, Function.comp, List.mem_cons]

/-! ## Claim theorems (C8, C9, C10) -/

/-- C8: an item-selection commit clears every selected flag and then sets
exactly the flags of the new selection, as one atomic multi-update modelled
as a single function application; afterwards a flag is true iff the item id
belongs to the new selection set. -/
theorem C8_commit_selection_iff (items : Selection.ItemFlags) (sel : List String) :
    Selection.commitSelection items sel
      = items.map fun p => (p.1, decide (p.1 ∈ sel)) := by
  unfold Selection.commitSelection
  rw [commit_foldl_eq, List.map_map]
  apply List.map_congr_left
  intro p _
  simp [Function.comp]

/-- C9: the selection rectangle does not depend on the drag direction: for
any two pointer positions its origin is the componentwise minimum, its
extent the componentwise absolute delta, hence never negative. -/
theorem C9_selection_area_normalized (p q : Selection.Point) :
    Selection.getSelectionArea p q = Selection.getSelectionArea q p ∧
    (Selection.getSelectionArea p q).x = min p.x q.x ∧
    (Selection.getSelectionArea p q).y = min p.y q.y ∧
    (Selection.getSelectionArea p q).width = |p.x - q.x| ∧
    (Selection.getSelectionArea p q).height = |p.y - q.y| ∧
    0 ≤ (Selection.getSelectionArea p q).width ∧
    0 ≤ (Selection.getSelectionArea p q).height := by
  rw [getSelectionArea_eq, getSelectionArea_eq]
  refine ⟨?_, rfl, rfl, rfl, rfl, abs_nonneg _, abs_nonneg _⟩
  simp [min_comm, abs_sub_comm]

/-- C10: the set of items computed as lying under the selection area is the
empty list, so a cell-area drag always clears the selected flag of every
item and empties the selected-items set. -/
theorem C10_cell_drag_clears_selection (initial current : Selection.Point)
    (items : Selection.ItemFlags) (selItems : List String) :
    Selection.getItemsUnderSelectionArea = [] ∧
    Selection.selectCells initial current items selItems
      = (true, Selection.getSelectionArea initial current,
         items.map fun p => (p.1, false), []) := by
  exact ⟨rfl, rfl⟩

/-! ## Claim theorems (C1, C2, C4) -/

/-- C1 counterexample: a proposed interval of negative width (signed
duration 0 - 10 = -10, at most one time unit) on an otherwise empty row,
with collision detection enabled, is reported as no collision; the claim
that collides returns true for negative-width intervals fails when the
magnitude of the inversion exceeds one time unit. -/
theorem C1_counterexample :
    (0 : Int) - 10 ≤ 1 ∧
    Gantt.isCollision ⟨true, false, true⟩ ⟨0, 0, 1000⟩ [] "a" 10 0 = false := by
  decide

/-- C1 (amended): collides returns false when collision detection is
disabled; otherwise it returns true exactly when out-of-border rejection is
enabled and the interval leaves the visible range, or the absolute duration
of the proposed interval is at most one time unit, or some other item of
the row overlaps the proposed interval under inclusive boundaries. -/
theorem C1_isCollision_characterization (opts : Gantt.Options) (time : Gantt.ChartTime)
    (rowItems : List Gantt.RowItem) (itemId : String) (start finish : Int) :
    Gantt.isCollision opts time rowItems itemId start finish = true ↔
      (opts.collisionDetection = true ∧
        ((opts.outOfBorders = true ∧ (start < time.timeFrom ∨ finish > time.timeTo)) ∨
         |finish - start| ≤ 1 ∨
         ∃ ri ∈ rowItems, ri.id ≠ itemId ∧
           ((ri.time.timeStart ≤ start ∧ start ≤ ri.time.timeEnd) ∨
            (ri.time.timeStart ≤ finish ∧ finish ≤ ri.time.timeEnd) ∨
            (start ≤ ri.time.timeStart ∧ ri.time.timeEnd ≤ finish)))) := by
  rcases opts with ⟨cd, oob, gn⟩
  have habseq : (if finish - start < 0 then -(finish - start) else finish - start)
      = |finish - start| := by
    rcases lt_or_le (finish - start) 0 with h | h
    · rw [if_pos h, abs_of_neg h]
    · rw [if_neg (not_lt.mpr h), abs_of_nonneg h]
  have hcore : (if (if finish - start < 0 then -(finish - start) else finish - start) ≤ 1
        then true
        else rowItems.any fun rowItem =>
          rowItem.id != itemId &&
          ((decide (start ≥ rowItem.time.timeStart) && decide (start ≤ rowItem.time.timeEnd)) ||
           (decide (finish ≥ rowItem.time.timeStart) && decide (finish ≤ rowItem.time.timeEnd)) ||
           (decide (start ≤ rowItem.time.timeStart) && decide (finish ≥ rowItem.time.timeEnd)))) = true
      ↔ (|finish - start| ≤ 1 ∨
          ∃ ri ∈ rowItems, ri.id ≠ itemId ∧
            ((ri.time.timeStart ≤ start ∧ start ≤ ri.time.timeEnd) ∨
             (ri.time.timeStart ≤ finish ∧ finish ≤ ri.time.timeEnd) ∨
             (start ≤ ri.time.timeStart ∧ ri.time.timeEnd ≤ finish))) := by
    rw [habseq]
    by_cases habs : |finish - start| ≤ 1
    · simp [habs]
    · rw [if_neg habs]
      simp only [habs, false_or, List.any_eq_true, Bool.and_eq_true, Bool.or_eq_true,
        decide_eq_true_eq, bne_iff_ne, ge_iff_le, ne_eq, or_assoc]
  cases cd with
  | false => simp [Gantt.isCollision]
  | true =>
    cases oob with
    | false =>
      simp only [Gantt.isCollision, Bool.not_true, Bool.false_and, Bool.false_eq_true,
        if_false]
      rw [hcore]
      simp
    | true =>
      simp only [Gantt.isCollision, Bool.not_true, Bool.true_and, Bool.false_eq_true,
        if_false]
      by_cases hob : start < time.timeFrom ∨ finish > time.timeTo
      · rw [if_pos (by simpa using hob)]
        simp [hob]
      · rw [if_neg (by simpa using hob)]
        rw [hcore]
        simp [hob]

/-- C2: with collision detection disabled, the default snap functions and a
resize pointer position equal to the current end of the item (raw delta 0,
so the raw proposal does not invert the interval and passes the inversion
guard), resizeX commits the interval (0, -1), whose end lies strictly
before its start: the code violates the invariant that every committed
resize satisfies end > start. -/
theorem C2_resize_commits_inverted_interval :
    Gantt.resizeX ⟨false, false, true⟩ Gantt.defaultSnap Gantt.defaultSnap ⟨1, 0, 1000⟩ []
        "a" ⟨0, 1⟩ 0 0 1 true = some ⟨0, -1⟩ ∧
    (-1 : Int) < 0 := by
  decide

/-- C4: whenever movementX commits, the committed delta is the snapped new
start minus the current start (not the raw pixel-derived delta), the new
start is the current start plus that delta, the new end is the end-snap of
the current end with that same delta minus one time unit, and the snapped
interval passed the collision check; in addition the delta is nonzero. -/
theorem C4_movementX_commit_spec (opts : Gantt.Options) (snapS snapE : Int → Int → Int)
    (time : Gantt.ChartTime) (rowItems : List Gantt.RowItem) (itemId : String)
    (item : Gantt.ItemTime) (clientX ganttLeft timePerPixel : Int) (t2 : Gantt.ItemTime)
    (h : Gantt.movementX opts snapS snapE time rowItems itemId item
          clientX ganttLeft timePerPixel = some t2) :
    ∃ finalAdd : Int,
      finalAdd = snapS item.timeStart
          (time.leftGlobal + (clientX - ganttLeft) * timePerPixel - item.timeStart)
          - item.timeStart ∧
      t2.timeStart = item.timeStart + finalAdd ∧
      t2.timeEnd = snapE item.timeEnd finalAdd - 1 ∧
      Gantt.isCollision opts time rowItems itemId (item.timeStart + finalAdd)
          (item.timeEnd + finalAdd) = false ∧
      finalAdd ≠ 0 := by
  simp only [Gantt.movementX] at h
  set finalAdd := snapS item.timeStart
      (time.leftGlobal + (clientX - ganttLeft) * timePerPixel - item.timeStart)
      - item.timeStart with hdef
  refine ⟨finalAdd, hdef, ?_⟩
  split at h
  next hcond =>
    rw [Bool.and_eq_true, bne_iff_ne, Bool.not_eq_true'] at hcond
    cases h
    exact ⟨rfl, rfl, hcond.2, hcond.1⟩
  next => exact absurd h (by simp)

/-- C4 witness: a concrete accepted move (item (0, 100) moved by a raw
pixel delta worth 10 time units on an empty row) commits start 10 and end
109, as the theorem states. -/
theorem C4_witness :
    ∃ finalAdd : Int,
      finalAdd = Gantt.defaultSnap 0 ((0 : Int) + (10 - 0) * 1 - 0) - 0 ∧
      (10 : Int) = 0 + finalAdd ∧
      (109 : Int) = Gantt.defaultSnap 100 finalAdd - 1 ∧
      Gantt.isCollision ⟨true, false, true⟩ ⟨0, 0, 1000⟩ [] "a" (0 + finalAdd)
          (100 + finalAdd) = false ∧
      finalAdd ≠ 0 :=
  C4_movementX_commit_spec ⟨true, false, true⟩ Gantt.defaultSnap Gantt.defaultSnap
    ⟨0, 0, 1000⟩ [] "a" ⟨0, 100⟩ 10 0 1 ⟨10, 109⟩ (by decide)

/-! ## Claim theorems (C3) -/

theorem reachesCycle_step {g : Selection.LinkGraph} {v : String}
    (h : ReachesCycle g v) : ∃ u ∈ g v, ReachesCycle g u := by
  obtain ⟨w, hvw, hcyc⟩ := h
  revert hcyc
  cases hvw with
  | refl =>
    intro hcyc
    obtain ⟨u, hu, huw⟩ := id hcyc
    exact ⟨u, hu, v, huw, hcyc⟩
  | step h1 h2 =>
    intro hcyc
    rename_i v1
    exact ⟨v1, h1, w, h2, hcyc⟩

theorem collectLoop_none_of_reachesCycle (g : Selection.LinkGraph) :
    ∀ (fuel : Nat) (wl cur : List String),
      (∃ v ∈ wl, ReachesCycle g v) → Selection.collectLoop g fuel wl cur = none := by
  intro fuel
  induction fuel with
  | zero =>
    rintro wl cur ⟨v, hv, _⟩
    cases wl with
    | nil => exact absurd hv (List.not_mem_nil v)
    | cons a as => rfl
  | succ f ih =>
    rintro wl cur ⟨v, hv, hrc⟩
    cases wl with
    | nil => exact absurd hv (List.not_mem_nil v)
    | cons id rest =>
      rcases List.mem_cons.mp hv with hvid | hvrest
      · subst hvid
        obtain ⟨u, hu, hrcu⟩ := reachesCycle_step hrc
        have hinner := ih (g v) (cur ++ [v]) ⟨u, hu, hrcu⟩
        simp only [Selection.collectLoop, hinner]
      · cases hinner : Selection.collectLoop g f (g id) (cur ++ [id]) with
        | none => simp only [Selection.collectLoop, hinner]
        | some cur2 =>
          simp only [Selection.collectLoop, hinner]
          exact ih rest cur2 ⟨v, hvrest, hrc⟩

/-- C3 counterexample: on the acyclic diamond graph (A links B and C, both
link D) the link closure of A collects D twice, so the computation does not
yield each reachable item exactly once. -/
theorem C3_counterexample :
    Selection.collectLinkedItems diamondG 10 "A" ["A"] = some ["A", "B", "D", "C", "D"] ∧
    (["A", "B", "D", "C", "D"] : List String).count "D" = 2 := by
  decide

/-- C3 (amended): the link-closure walk has no visited-set check.  For
every linkedWith graph and every item from which a cycle is reachable, the
recursion never terminates (the fuel-indexed embedding returns none for
every fuel and every seed list); and the walk is not duplicate-free: an
item reachable along several link paths is collected once per path, as the
diamond graph exhibits (D is collected twice). -/
theorem C3_link_closure_behaviour :
    (∀ (g : Selection.LinkGraph) (itemId : String) (current : List String) (fuel : Nat),
        ReachesCycle g itemId →
        Selection.collectLinkedItems g fuel itemId current = none) ∧
    (Selection.collectLinkedItems diamondG 10 "A" ["A"] = some ["A", "B", "D", "C", "D"] ∧
     (["A", "B", "D", "C", "D"] : List String).count "D" = 2) := by
  refine ⟨?_, by decide, by decide⟩
  intro g itemId current fuel hrc
  obtain ⟨u, hu, hrcu⟩ := reachesCycle_step hrc
  exact collectLoop_none_of_reachesCycle g fuel (g itemId) current ⟨u, hu, hrcu⟩

/-- C3 witness: the non-termination branch applied to the concrete
two-item cycle, whose cycle reachability is discharged by an explicit
path. -/
theorem C3_witness : Selection.collectLinkedItems cycleG 7 "A" ["A"] = none :=
  C3_link_closure_behaviour.1 cycleG "A" ["A"] 7
    ⟨"A", Reaches.refl "A", "B", by decide, Reaches.step (by decide) (Reaches.refl "A")⟩

/-! ## Claim theorems (C7) -/

theorem mem_jsSetDedupAux (x : String) : ∀ (l seen : List String),
    x ∈ Selection.jsSetDedupAux l seen ↔ (x ∈ l ∧ x ∉ seen) := by
  intro l
  induction l with
  | nil => intro seen; simp [Selection.jsSetDedupAux]
  | cons y ys ih =>
    intro seen
    by_cases hc : seen.contains y
    · rw [Selection.jsSetDedupAux, if_pos hc, ih seen]
      have hy : y ∈ seen := by simpa using hc
      constructor
      · rintro ⟨h1, h2⟩
        exact ⟨List.mem_cons_of_mem _ h1, h2⟩
      · rintro ⟨h1, h2⟩
        rcases List.mem_cons.mp h1 with h | h
        · exact absurd (h ▸ hy) h2
        · exact ⟨h, h2⟩
    · rw [Selection.jsSetDedupAux, if_neg hc]
      have hy : y ∉ seen := by simpa using hc
      simp only [List.mem_cons, ih (y :: seen)]
      constructor
      · rintro (h | ⟨h1, h2⟩)
        · exact ⟨Or.inl h, by rw [h]; exact hy⟩
        · exact ⟨Or.inr h1, fun hs => h2 (Or.inr hs)⟩
      · rintro ⟨h1 | h1, h2⟩
        · exact Or.inl h1
        · by_cases hxy : x = y
          · exact Or.inl hxy
          · exact Or.inr ⟨h1, fun hm => hm.elim hxy h2⟩

theorem nodup_jsSetDedupAux : ∀ (l seen : List String),
    (Selection.jsSetDedupAux l seen).Nodup := by
  intro l
  induction l with
  | nil => intro seen; simp [Selection.jsSetDedupAux]
  | cons y ys ih =>
    intro seen
    by_cases hc : seen.contains y
    · rw [Selection.jsSetDedupAux, if_pos hc]
      exact ih seen
    · rw [Selection.jsSetDedupAux, if_neg hc]
      refine List.nodup_cons.mpr ⟨?_, ih (y :: seen)⟩
      intro hmem
      rcases (mem_jsSetDedupAux y ys (y :: seen)).mp hmem with ⟨_, h2⟩
      exact h2 (List.mem_cons_self _ _)

/-- C7 counterexample: with X linked to Y, previous selection exactly X and
ctrl held, dragging X again yields the selection X alone, although the link
closure of X contains Y: the union with the link closure is not formed when
the target item is already selected. -/
theorem C7_counterexample :
    Selection.getSelected chainXY 10 ["X"] true "X" = some ["X"] ∧
    Selection.collectLinkedItems chainXY 10 "X" ["X"] = some ["X", "Y"] ∧
    ("Y" : String) ∉ (["X"] : List String) := by
  decide

/-- C7 (amended): when the targeted item is not already in the selected set
and its link closure terminates, ctrl-selection yields the duplicate-free
union of the previous selection with the closure (first occurrences kept,
membership is exactly the union, no duplicates), and plain selection
replaces the selection by the closure; when the target is already selected
the previous selection is returned unchanged. -/
theorem C7_getSelected_spec (g : Selection.LinkGraph) (fuel : Nat)
    (prev : List String) (ctrl : Bool) (itemId : String) (closure : List String)
    (hnot : prev.contains itemId = false)
    (hclo : Selection.collectLinkedItems g fuel itemId [itemId] = some closure) :
    Selection.getSelected g fuel prev ctrl itemId
      = some (if ctrl then Selection.jsSetDedup (prev ++ closure) else closure) ∧
    (∀ x, x ∈ Selection.jsSetDedup (prev ++ closure) ↔ (x ∈ prev ∨ x ∈ closure)) ∧
    (Selection.jsSetDedup (prev ++ closure)).Nodup := by
  refine ⟨?_, ?_, nodup_jsSetDedupAux _ _⟩
  · unfold Selection.getSelected
    rw [if_neg (by simpa using hnot), hclo]
    cases ctrl <;> simp
  · intro x
    rw [Selection.jsSetDedup, mem_jsSetDedupAux]
    simp [List.mem_append]

/-- C7 witness: ctrl-selecting X (linked to Y) while Z is selected yields
the duplicate-free union Z, X, Y. -/
theorem C7_witness :
    Selection.getSelected chainXY 10 ["Z"] true "X"
      = some (if true then Selection.jsSetDedup (["Z"] ++ ["X", "Y"]) else ["X", "Y"]) ∧
    (∀ x, x ∈ Selection.jsSetDedup (["Z"] ++ ["X", "Y"])
        ↔ (x ∈ (["Z"] : List String) ∨ x ∈ (["X", "Y"] : List String))) ∧
    (Selection.jsSetDedup (["Z"] ++ ["X", "Y"])).Nodup :=
  C7_getSelected_spec chainXY 10 ["Z"] true "X" ["X", "Y"] (by decide) (by decide)

/-! ## Claim theorems (C6) -/

/-- C6: for a gesture starting from a non-moving record, a primary-button
down enters waiting without moving; a pointer-up processed before the wait
timer fires clears the waiting flag, and the timer callback that runs
afterwards observes waiting false and changes nothing, so the record never
transitions to moving during the gesture. -/
theorem C6_wait_timer_race (opts : Gantt.Options) (itemId : String)
    (m0 : Gantt.Movement) (cap : Gantt.Capture) (h : m0.moving = false) :
    (Gantt.labelDown true m0).moving = false ∧
    ∃ m2, (Gantt.documentUp opts itemId [(itemId, Gantt.labelDown true m0)]).lookup itemId
        = some m2 ∧
      m2.waiting = false ∧ m2.moving = false ∧ Gantt.timerCallback opts cap m2 = m2 := by
  have hup : Gantt.documentUp opts itemId [(itemId, Gantt.labelDown true m0)]
      = [(itemId, Gantt.destroyGhost opts (Gantt.clearFlags (Gantt.labelDown true m0)))] := by
    simp [Gantt.documentUp, Gantt.getMovement, Gantt.labelDown, Gantt.resetAll, List.lookup]
  have hw : (Gantt.destroyGhost opts (Gantt.clearFlags (Gantt.labelDown true m0))).waiting
      = false := by
    by_cases hg : opts.ghostNode <;> simp [Gantt.destroyGhost, Gantt.clearFlags, hg]
  have hm : (Gantt.destroyGhost opts (Gantt.clearFlags (Gantt.labelDown true m0))).moving
      = false := by
    by_cases hg : opts.ghostNode <;> simp [Gantt.destroyGhost, Gantt.clearFlags, hg]
  refine ⟨by simp [Gantt.labelDown, h], ?_⟩
  refine ⟨Gantt.destroyGhost opts (Gantt.clearFlags (Gantt.labelDown true m0)), ?_, hw, hm, ?_⟩
  · rw [hup]
    simp [List.lookup]
  · simp [Gantt.timerCallback, hw]

/-- C6 witness: the race theorem instantiated at a fresh record, default
options and an arbitrary capture. -/
theorem C6_witness :
    (Gantt.labelDown true Gantt.freshMovement).moving = false ∧
    ∃ m2, (Gantt.documentUp ⟨true, false, true⟩ "a"
          [("a", Gantt.labelDown true Gantt.freshMovement)]).lookup "a" = some m2 ∧
      m2.waiting = false ∧ m2.moving = false ∧
      Gantt.timerCallback ⟨true, false, true⟩ ⟨0, 0, 0, 0⟩ m2 = m2 :=
  C6_wait_timer_race ⟨true, false, true⟩ "a" Gantt.freshMovement ⟨0, 0, 0, 0⟩ (by decide)

/-! ## Claim theorems (C5) -/

theorem lookup_mem {st : Gantt.MovementState} {k : String} {m : Gantt.Movement}
    (h : st.lookup k = some m) : (k, m) ∈ st := by
  induction st with
  | nil => simp at h
  | cons a as ih =>
    rcases a with ⟨a1, a2⟩
    rw [List.lookup_cons] at h
    cases hbeq : k == a1 with
    | true =>
      rw [hbeq] at h
      cases h
      exact List.mem_cons.mpr (Or.inl (by rw [eq_of_beq hbeq]))
    | false =>
      rw [hbeq] at h
      exact List.mem_cons.mpr (Or.inr (ih h))

theorem lookup_append_left {st : Gantt.MovementState} (l : Gantt.MovementState)
    {k : String} {m : Gantt.Movement} (h : st.lookup k = some m) :
    (st ++ l).lookup k = some m := by
  induction st with
  | nil => simp at h
  | cons a as ih =>
    rcases a with ⟨a1, a2⟩
    rw [List.cons_append]
    rw [List.lookup_cons] at h ⊢
    cases hbeq : k == a1 with
    | true =>
      rw [hbeq] at h
      exact h
    | false =>
      rw [hbeq] at h
      exact ih h

theorem allCleared_resetAll (opts : Gantt.Options) (st : Gantt.MovementState)
    (hg : opts.ghostNode = true ∨ Gantt.noGhosts st = true) :
    Gantt.allCleared (Gantt.resetAll opts st) = true := by
  rw [Gantt.allCleared, List.all_eq_true]
  intro p hp
  rcases List.mem_map.mp hp with ⟨q, hq, rfl⟩
  rcases hg with hgn | hng
  · simp [Gantt.clearedRec, Gantt.destroyGhost, Gantt.clearFlags, hgn]
  · rw [Gantt.noGhosts, List.all_eq_true] at hng
    have hq2 : q.2.ghost = false := by simpa using hng q hq
    by_cases hgn : opts.ghostNode <;>
      simp [Gantt.clearedRec, Gantt.destroyGhost, Gantt.clearFlags, hgn, hq2]

theorem documentUp_cases (opts : Gantt.Options) (k : String) (st : Gantt.MovementState) :
    Gantt.documentUp opts k st = st ∨
    Gantt.documentUp opts k st = st ++ [(k, Gantt.freshMovement)] ∨
    (∃ m, st.lookup k = some m ∧ (m.moving || m.resizing || m.waiting) = true ∧
      Gantt.documentUp opts k st = Gantt.resetAll opts st) := by
  cases hlk : st.lookup k with
  | none =>
    right; left
    simp [Gantt.documentUp, Gantt.getMovement, hlk, Gantt.freshMovement]
  | some m =>
    by_cases hf : (m.moving || m.resizing || m.waiting) = true
    · right; right
      refine ⟨m, rfl, hf, ?_⟩
      simp [Gantt.documentUp, Gantt.getMovement, hlk, hf]
    · left
      rw [Bool.not_eq_true] at hf
      simp [Gantt.documentUp, Gantt.getMovement, hlk, hf]

theorem allCleared_documentUp (opts : Gantt.Options) (k : String)
    (st : Gantt.MovementState) (h : Gantt.allCleared st = true) :
    Gantt.allCleared (Gantt.documentUp opts k st) = true := by
  rcases documentUp_cases opts k st with hc | hc | ⟨m, hlk, hf, hc⟩ <;> rw [hc]
  · exact h
  · rw [Gantt.allCleared] at h ⊢
    rw [List.all_append, h]
    simp [Gantt.clearedRec, Gantt.freshMovement]
  · rw [Gantt.allCleared, List.all_eq_true] at h
    have hm := h (k, m) (lookup_mem hlk)
    simp only [Gantt.clearedRec, Bool.and_eq_true, Bool.not_eq_true'] at hm
    rw [hm.1.1.1, hm.1.1.2, hm.1.2] at hf
    simp at hf

theorem allCleared_pointerUpAll (opts : Gantt.Options) (hs : List String) :
    ∀ st : Gantt.MovementState, Gantt.allCleared st = true →
      Gantt.allCleared (Gantt.pointerUpAll opts hs st) = true := by
  induction hs with
  | nil => intro st h; exact h
  | cons j rest ih =>
    intro st h
    show Gantt.allCleared (Gantt.pointerUpAll opts rest (Gantt.documentUp opts j st)) = true
    exact ih _ (allCleared_documentUp opts j st h)

/-- C5: if any tracked item holds an active moving, resizing or waiting
flag when a document pointer-up is dispatched to all registered handlers,
then afterwards every tracked record has all three flags false and no ghost
proxy left (assuming ghosts only exist when the ghostNode option is on,
which is how they are created). -/
theorem C5_pointer_up_resets_all (opts : Gantt.Options) (handlers : List String) :
    ∀ (st : Gantt.MovementState) (k : String) (m : Gantt.Movement),
      k ∈ handlers → st.lookup k = some m →
      (m.moving || m.resizing || m.waiting) = true →
      (opts.ghostNode = false → Gantt.noGhosts st = true) →
      Gantt.allCleared (Gantt.pointerUpAll opts handlers st) = true := by
  induction handlers with
  | nil =>
    intro st k m hk
    cases hk
  | cons j rest ih =>
    intro st k m hk hlk hfl hg
    show Gantt.allCleared (Gantt.pointerUpAll opts rest (Gantt.documentUp opts j st)) = true
    by_cases hkj : k = j
    · subst hkj
      have hred : Gantt.documentUp opts k st = Gantt.resetAll opts st := by
        simp [Gantt.documentUp, Gantt.getMovement, hlk, hfl]
      rw [hred]
      apply allCleared_pointerUpAll
      apply allCleared_resetAll
      cases hgn : opts.ghostNode
      · exact Or.inr (hg hgn)
      · exact Or.inl rfl
    · have hk' : k ∈ rest := by
        rcases List.mem_cons.mp hk with h | h
        · exact absurd h hkj
        · exact h
      rcases documentUp_cases opts j st with hc | hc | ⟨mj, hlkj, hfj, hc⟩ <;> rw [hc]
      · exact ih st k m hk' hlk hfl hg
      · refine ih _ k m hk' (lookup_append_left _ hlk) hfl ?_
        intro hgn
        have h1 := hg hgn
        rw [Gantt.noGhosts] at h1 ⊢
        rw [List.all_append, h1]
        simp [Gantt.freshMovement]
      · apply allCleared_pointerUpAll
        apply allCleared_resetAll
        cases hgn : opts.ghostNode
        · exact Or.inr (hg hgn)
        · exact Or.inl rfl

/-- C5 witness: two tracked items, the first mid-drag with a ghost, the
second idle but with a stale ghost; the pointer-up processed by both
handlers clears every flag and ghost. -/
theorem C5_witness :
    Gantt.allCleared (Gantt.pointerUpAll ⟨true, false, true⟩ ["a", "b"]
      [("a", ⟨true, false, false, true, none, some 3, some 0, some 0⟩),
       ("b", ⟨false, false, false, true, none, none, none, none⟩)]) = true :=
  C5_pointer_up_resets_all ⟨true, false, true⟩ ["a", "b"]
    [("a", ⟨true, false, false, true, none, some 3, some 0, some 0⟩),
     ("b", ⟨false, false, false, true, none, none, none, none⟩)]
    "a" ⟨true, false, false, true, none, some 3, some 0, some 0⟩
    (by decide) (by decide) (by decide) (by decide)
